import Mathlib

/-!
# Verification of the Memphora chat-augmentation middleware (memphora-sdk-js)

Shallow embedding of the middleware core in `src/vercel.ts` (and the
constructors in `src/memphora.ts` / `memory-client.ts`), together with
theorems settling the specification claims.

Conventions of the embedding:
* JavaScript `a || b` on strings is falsy exactly on `""`/`undefined`;
  we model `undefined` with `Option` and `||` with `jsOr`/`jsOrOpt`.
* An awaited remote call that may reject is modelled as a function
  returning `Except String α`; a `try`/`catch` around it becomes a
  `match` on that value, so "the operation resolves (never rejects)"
  is modelled by the embedded function being total into a plain result
  type rather than into `Except`.
* The async-generator wrapper `wrapStreamWithMemory` is modelled by a
  small-step consumption loop (`runLoop`) driven by a consumer policy,
  with the `finally` block translated as the single record appended
  when the loop terminates, in every termination mode.
-/

namespace Memphora

/-- JavaScript `a || b` where `a : Option String` models a possibly
`undefined` string expression: `undefined` and `""` are falsy. -/
def jsOrOpt (a : Option String) (b : String) : String :=
  match a with
  | some s => if s = "" then b else s
  | none => b

/-- JavaScript `a || b` for two definitely-present strings. -/
def jsOr (a b : String) : String :=
  if a = "" then b else a

/-- Message roles accepted by the Vercel AI SDK message type
(`AIMessage.role` in `src/vercel.ts`). -/
inductive Role where
  | user
  | assistant
  | system
  | function
  | data
  | tool
deriving DecidableEq, Repr

/-- `AIMessage` from `src/vercel.ts` (only the fields the middleware
reads: `role` and `content`). -/
structure AIMessage where
  role : Role
  content : String
deriving DecidableEq, Repr

/-- A fact returned by the remote search call
(`result.facts` in `beforeChat`). -/
structure Fact where
  text : String
  memory_id : Option String
deriving DecidableEq, Repr

/-- Search result shape consumed by `beforeChat`
(`client.search(query, maxMemories)`). -/
structure SearchResult where
  facts : List Fact
deriving DecidableEq, Repr

/-- `Memory` as produced by `beforeChat`'s backwards-compatibility
conversion (`{ id: f.memory_id || '', content: f.text }`). -/
structure Memory where
  id : String
  content : String
deriving DecidableEq, Repr

/-- `BeforeChatResult` from `src/vercel.ts`. -/
structure BeforeChatResult where
  context : String
  memories : List Memory
  enhancedMessages : List AIMessage
  userId : String
deriving DecidableEq, Repr

/-- `AfterChatResult` from `src/vercel.ts`; `memories` and `error`
are optional fields. -/
structure AfterChatResult where
  success : Bool
  memories : Option (List Memory)
  error : Option String
deriving DecidableEq, Repr

/-- The construction-time configuration captured by
`createMemphoraMiddleware` after destructuring with defaults applied
(`maxMemories = 10`, `autoStore = true`, `injectAsSystemMessage = true`,
`systemBanner (source name: the banner text option) = 'Relevant context from previous conversations:'`,
`defaultUserId = 'anonymous'`). -/
structure MiddlewareConfig where
  apiKey : String
  apiUrl : Option String
  defaultUserId : String
  maxMemories : Nat
  maxTokens : Nat
  autoStore : Bool
  injectAsSystemMessage : Bool
  systemBanner : String
deriving DecidableEq, Repr

/-- `options?.userId || await resolveUserId(req)` — the user id actually
used by `beforeChat`/`afterChat`: the explicit override when present and
non-empty (JavaScript `||` treats `""` as falsy), else the
request-derived/default resolution. -/
def chosenUserId (override : Option String) (resolved : String) : String :=
  jsOrOpt override resolved

/-- The search query chosen by `beforeChat`:
`options?.query || lastUserMessage?.content || ''` where
`lastUserMessage = [...messages].reverse().find(m => m.role === 'user')`. -/
def computeQuery (override : Option String) (messages : List AIMessage) : String :=
  let lastUserMessage := messages.reverse.find? (fun m => m.role = Role.user)
  jsOrOpt override (jsOrOpt (lastUserMessage.map (·.content)) "")

/-- The `(memories, context)` pair computed by `beforeChat`'s
search-and-format step: search only when the query is non-empty,
swallow a rejected call (`catch` → keep the empty defaults), and when
at least one fact came back render `- <text>` lines joined by newlines
together with the backwards-compatibility `Memory` conversion. -/
def searchStep (search : String → Nat → Except String SearchResult)
    (maxMemories : Nat) (query : String) : List Memory × String :=
  if query = "" then ([], "")
  else
    match search query maxMemories with
    | Except.error _ => ([], "")
    | Except.ok result =>
      if result.facts.length > 0 then
        (result.facts.map (fun f => { id := jsOrOpt f.memory_id "", content := f.text }),
         String.intercalate "\n" (result.facts.map (fun f => "- " ++ f.text)))
      else ([], "")

/-- `beforeChat`'s message-augmentation step: when a non-empty context
was produced and system-message injection is enabled, append the banner
and context to the first system-role message if one exists
(`findIndex` + in-place update of the copied array), otherwise prepend
a fresh system message; else return the (copy of the) input unchanged. -/
def buildEnhanced (cfg : MiddlewareConfig) (context : String)
    (messages : List AIMessage) : List AIMessage :=
  if context ≠ "" ∧ cfg.injectAsSystemMessage then
    let ctxContent := cfg.systemBanner ++ "\n" ++ context
    match messages.findIdx? (fun m => m.role = Role.system) with
    | some k =>
      messages.set k
        { role := (messages.getD k ⟨Role.system, ""⟩).role,
          content := (messages.getD k ⟨Role.system, ""⟩).content ++ "\n\n" ++ ctxContent }
    | none => ⟨Role.system, ctxContent⟩ :: messages
  else messages

/-- `beforeChat` from `src/vercel.ts`. The remote search is passed as a
function returning `Except` (a rejected promise is `Except.error`);
`resolved` is the value `await resolveUserId(req)` would produce.
Totality of this function into `BeforeChatResult` models the guarantee
that `beforeChat` resolves rather than rejects. -/
def beforeChat (cfg : MiddlewareConfig) (messages : List AIMessage)
    (resolved : String) (optUserId optQuery : Option String)
    (search : String → Nat → Except String SearchResult) : BeforeChatResult :=
  let userId := chosenUserId optUserId resolved
  let query := computeQuery optQuery messages
  let (memories, context) := searchStep search cfg.maxMemories query
  { context := context
    memories := memories
    enhancedMessages := buildEnhanced cfg context messages
    userId := userId }

/-- A turn of the canonical conversation record sent for extraction
(`ConversationMessage` restricted to user/assistant roles). -/
structure ConversationMessage where
  role : Role
  content : String
deriving DecidableEq, Repr

/-- The `ConversationRecord` built by `afterChat`: the input filtered to
user/assistant turns (order preserved), with one assistant turn carrying
the final response text appended. -/
def buildConversation (messages : List AIMessage) (assistantResponse : String) :
    List ConversationMessage :=
  (messages.filter (fun m => m.role = Role.user ∨ m.role = Role.assistant)).map
      (fun m => ({ role := m.role, content := m.content } : ConversationMessage))
    ++ [{ role := Role.assistant, content := assistantResponse }]

/-- `afterChat` from `src/vercel.ts`. The remote
`rawClient.extractFromConversation(userId, conversation)` call is the
`extract` parameter (`Except.error msg` models a rejection whose
JavaScript error message is `msg`); the surrounding `try`/`catch` is the
`match`. Totality into `AfterChatResult` models that `afterChat`
resolves and never rejects. -/
def afterChat (cfg : MiddlewareConfig) (messages : List AIMessage)
    (assistantResponse : String) (resolved : String) (optUserId : Option String)
    (extract : String → List ConversationMessage → Except String (List Memory)) :
    AfterChatResult :=
  if cfg.autoStore = false then
    { success := true, memories := none, error := none }
  else
    let userId := chosenUserId optUserId resolved
    let conversation := buildConversation messages assistantResponse
    match extract userId conversation with
    | Except.ok mems => { success := true, memories := some mems, error := none }
    | Except.error msg => { success := false, memories := none, error := some msg }

/-!
## Runtime view of construction (`new Memphora(...)`,
`createMemphoraMiddleware(...)`)

At runtime (plain JavaScript) a "required" option that the caller
omitted arrives as `undefined`; we model every field as an `Option`.
The constructors are embedded as `Except`-valued so that "construction
raises an error" is statable: the bodies below mirror the source
statements, none of which throws.
-/

/-- `MemphoraOptions` as seen at runtime: every field may be
`undefined`. -/
structure MemphoraOptionsJS where
  userId : Option String
  apiKey : Option String
  apiUrl : Option String
  autoCompress : Option Bool
  maxTokens : Option Nat
deriving DecidableEq, Repr

/-- State of a `MemoryClient` after its constructor ran: the base URL
with one trailing `/` stripped (`baseUrl.replace(/\/$/, '')`) and the
stored key. -/
structure MemoryClientState where
  baseUrl : String
  apiKey : Option String
deriving DecidableEq, Repr

/-- `baseUrl.replace(/\/$/, '')`: drop a single trailing slash (the
regex matches exactly one `/` at the end of the string). -/
def stripTrailingSlash (s : String) : String :=
  if s.data.getLast? = some '/' then String.mk s.data.dropLast else s

/-- The `MemoryClient` constructor (`memory-client.ts`): normalises the
base URL and stores the key; performs no validation. -/
def memoryClientNew (baseUrl : String) (apiKey : Option String) : MemoryClientState :=
  { baseUrl := stripTrailingSlash baseUrl, apiKey := apiKey }

/-- State of a `Memphora` instance after its constructor ran. -/
structure MemphoraState where
  userId : Option String
  client : MemoryClientState
  autoCompress : Bool
  maxTokens : Nat
deriving DecidableEq, Repr

/-- The `Memphora` constructor (`src/memphora.ts`). Mirrors the four
assignments of the source (`options.apiUrl || default`,
`options.autoCompress !== false`, `options.maxTokens || 500`); no
statement can throw, so the result is always `Except.ok`. -/
def memphoraNew (o : MemphoraOptionsJS) : Except String MemphoraState :=
  Except.ok
    { userId := o.userId
      client := memoryClientNew (jsOrOpt o.apiUrl "https://api.memphora.ai/api/v1") o.apiKey
      autoCompress := o.autoCompress ≠ some false
      maxTokens := match o.maxTokens with
                   | some n => if n = 0 then 500 else n
                   | none => 500 }

/-- `MemphoraMiddlewareConfig` as seen at runtime: every field may be
`undefined`. -/
structure MiddlewareConfigJS where
  apiKey : Option String
  apiUrl : Option String
  defaultUserId : Option String
  maxMemories : Option Nat
  maxTokens : Option Nat
  autoStore : Option Bool
  injectAsSystemMessage : Option Bool
  systemBanner : Option String
deriving DecidableEq, Repr

/-- `createMemphoraMiddleware`'s construction step: destructure the
config with defaults. It performs no validation of `apiKey` and cannot
throw; the captured snapshot (the destructured values plus an empty
client cache) is what every later call closes over, so configuration
changes made after construction are invisible. The `apiKey` stays an
`Option` because a missing key is simply captured as `undefined`. -/
structure MiddlewareCaptured where
  apiKey : Option String
  apiUrl : Option String
  defaultUserId : String
  maxMemories : Nat
  maxTokens : Nat
  autoStore : Bool
  injectAsSystemMessage : Bool
  systemBanner : String
deriving DecidableEq, Repr

/-- The runtime behaviour of `createMemphoraMiddleware(config)`:
destructuring with defaults, never an exception. -/
def createMemphoraMiddlewareJS (c : MiddlewareConfigJS) : Except String MiddlewareCaptured :=
  Except.ok
    { apiKey := c.apiKey
      apiUrl := c.apiUrl
      defaultUserId := c.defaultUserId.getD "anonymous"
      maxMemories := c.maxMemories.getD 10
      maxTokens := c.maxTokens.getD 2000
      autoStore := c.autoStore.getD true
      injectAsSystemMessage := c.injectAsSystemMessage.getD true
      systemBanner := c.systemBanner.getD
        "Relevant context from previous conversations:" }

/-!
## Per-user client registry (`getClient`)
-/

/-- The client cache `Map<string, Memphora>` as an insert-only
association list (newest binding first, matching `Map.set` overwrite
semantics for a key that is absent — the code only inserts when the key
is absent). -/
def cacheGet (cache : List (String × MemphoraState)) (u : String) :
    Option MemphoraState :=
  (cache.find? (fun p => p.1 = u)).map (·.2)

/-- The `Memphora` instance `getClient` constructs for a cache miss:
`new Memphora({ userId, apiKey, apiUrl, maxTokens })`, parametrised by
the configuration captured at middleware construction. -/
def mkClientFor (cfg : MiddlewareConfig) (u : String) : MemphoraState :=
  match memphoraNew
      { userId := some u, apiKey := some cfg.apiKey, apiUrl := cfg.apiUrl,
        autoCompress := none, maxTokens := some cfg.maxTokens } with
  | Except.ok st => st
  | Except.error _ => { userId := none, client := memoryClientNew "" none,
                        autoCompress := true, maxTokens := 500 }

/-- `getClient(userId)` from `src/vercel.ts`: insert a freshly
constructed client on a miss (`clientCache.has` / `clientCache.set`),
then return `clientCache.get(userId)!`. Returns the handle together
with the updated cache. -/
def getClient (cfg : MiddlewareConfig) (cache : List (String × MemphoraState))
    (u : String) : MemphoraState × List (String × MemphoraState) :=
  let cache' := if (cacheGet cache u).isSome then cache else (u, mkClientFor cfg u) :: cache
  ((cacheGet cache' u).getD (mkClientFor cfg u), cache')

/-!
## Stream observer (`wrapStreamWithMemory`)

The underlying producer is modelled by the finite list of chunks it
yields followed by how it terminates (normal exhaustion or a thrown
error). The consumer is modelled by a policy: never start the
iterator, pull at most `n` chunks and then break, or drain the stream.
`runLoop` is the small-step translation of the generator body
(`for await (const chunk of stream) { fullResponse += content; yield chunk }`);
the `finally` block is translated as the single `afterChat` record the
driver emits at whichever point the loop terminates — including an
early break (the generator's `return()` resumes at the `yield` and runs
the `finally`) and a producer error (which propagates to the consumer
after the `finally` ran). A generator whose iterator is never advanced
never starts its body, so its `finally` never runs.
-/

/-- Optional `delta` object of a chunk (`{ content?: string }`). -/
structure Delta where
  content : Option String
deriving DecidableEq, Repr

/-- One element of the `choices` array of an OpenAI-style chunk. -/
structure Choice where
  delta : Option Delta
deriving DecidableEq, Repr

/-- A stream chunk, carrying the three optional shapes the wrapper
probes: `choices[0].delta.content`, `delta.content`, `content`. -/
structure Chunk where
  choices : List Choice
  delta : Option Delta
  content : Option String
deriving DecidableEq, Repr

/-- The text delta extracted from a chunk:
`chunk.choices?.[0]?.delta?.content || chunk.delta?.content || chunk.content || ''`
(JavaScript `||`, so an empty string in an earlier shape falls through
to the next). -/
def extractContent (c : Chunk) : String :=
  jsOrOpt ((c.choices.head?.bind (·.delta)).bind (·.content))
    (jsOrOpt (c.delta.bind (·.content)) (jsOrOpt c.content ""))

/-- How the underlying stream terminates after its last chunk. -/
inductive Ending where
  | exhausted
  | error (e : String)
deriving DecidableEq, Repr

/-- An underlying chunk stream: the chunks it yields, then its
termination. -/
structure Source where
  chunks : List Chunk
  ending : Ending
deriving DecidableEq, Repr

/-- Consumer policy for a single-pass iteration of the wrapped (or
unwrapped) stream: never advance the iterator, pull at most `n` chunks
then break out of the loop, or drain the stream. -/
inductive Consume where
  | never
  | take (n : Nat)
  | all
deriving DecidableEq, Repr

/-- How iteration ended from the consumer's point of view. -/
inductive Outcome where
  | notStarted
  | done
  | broke
  | errored (e : String)
deriving DecidableEq, Repr

/-- Concatenation of the text deltas of a list of chunks, in order —
the reference value for the wrapper's `fullResponse` accumulator. -/
def accumText : List Chunk → String
  | [] => ""
  | c :: rest => extractContent c ++ accumText rest

/-- Small-step consumption of the wrapper generator's body.
`budget = some b` means the consumer will pull at most `b` more chunks
before breaking; `none` means it drains. `acc` is the current value of
`fullResponse`. Returns the chunks forwarded to the consumer from here
on, the outcome the consumer observes, and the value of `fullResponse`
when the `finally` block runs. Accumulation of a chunk happens before
its `yield`, so a chunk the consumer broke on is already accumulated. -/
def runLoop : List Chunk → Ending → String → Option Nat →
    List Chunk × Outcome × String
  | _, _, acc, some 0 => ([], Outcome.broke, acc)
  | [], Ending.exhausted, acc, _ => ([], Outcome.done, acc)
  | [], Ending.error e, acc, _ => ([], Outcome.errored e, acc)
  | c :: rest, ending, acc, budget =>
    let acc' := acc ++ extractContent c
    let r := runLoop rest ending acc' (budget.map (· - 1))
    (c :: r.1, r.2.1, r.2.2)

/-- Result of one consumption of the wrapped stream: the chunks the
consumer observed, how iteration ended for it, the list of response
texts `afterChat` was invoked with (one entry per invocation), and
whether the `memoryPromise` completion handle settled. -/
structure RunResult where
  observed : List Chunk
  outcome : Outcome
  afterChatTexts : List String
  memorySettled : Bool
deriving DecidableEq, Repr

/-- Consumption of the stream returned by `wrapStreamWithMemory` under
a consumer policy. If the iterator is never advanced (`never`, or a
break before the first pull) the generator body never starts: no
accumulation, no `finally`, no `afterChat`, and `memoryPromise` never
settles. Otherwise the loop runs and the `finally` invokes `afterChat`
exactly once with the accumulated text, after which `resolveMemory`
settles the completion handle. -/
def runWrapped (src : Source) (consume : Consume) : RunResult :=
  match consume with
  | Consume.never => ⟨[], Outcome.notStarted, [], false⟩
  | Consume.take 0 => ⟨[], Outcome.notStarted, [], false⟩
  | Consume.take (n + 1) =>
    let r := runLoop src.chunks src.ending "" (some (n + 1))
    ⟨r.1, r.2.1, [r.2.2], true⟩
  | Consume.all =>
    let r := runLoop src.chunks src.ending "" none
    ⟨r.1, r.2.1, [r.2.2], true⟩

/-- Direct, unwrapped iteration of the source under the same consumer
policy (the reference semantics for forwarding transparency): the
chunks observed and the outcome, with no accumulation and no
persistence side effect. -/
def runDirectLoop : List Chunk → Ending → Option Nat → List Chunk × Outcome
  | _, _, some 0 => ([], Outcome.broke)
  | [], Ending.exhausted, _ => ([], Outcome.done)
  | [], Ending.error e, _ => ([], Outcome.errored e)
  | c :: rest, ending, budget =>
    let r := runDirectLoop rest ending (budget.map (· - 1))
    (c :: r.1, r.2)

/-- Direct iteration of the unwrapped source. -/
def runDirect (src : Source) (consume : Consume) : List Chunk × Outcome :=
  match consume with
  | Consume.never => ([], Outcome.notStarted)
  | Consume.take 0 => ([], Outcome.notStarted)
  | Consume.take (n + 1) => runDirectLoop src.chunks src.ending (some (n + 1))
  | Consume.all => runDirectLoop src.chunks src.ending none

/-- Whether a consumer policy starts the generator body (pulls at least
once). -/
def startsIteration : Consume → Bool
  | Consume.never => false
  | Consume.take 0 => false
  | Consume.take (_ + 1) => true
  | Consume.all => true

/-!
## Concrete fixtures (used by witnesses and counterexamples)
-/

/-- A middleware configuration with every destructuring default of
`createMemphoraMiddleware` applied. -/
def exampleCfg : MiddlewareConfig :=
  { apiKey := "key", apiUrl := none, defaultUserId := "anonymous", maxMemories := 10,
    maxTokens := 2000, autoStore := true, injectAsSystemMessage := true,
    systemBanner := "Relevant context from previous conversations:" }

/-- A stubbed remote search that always succeeds with one fact. -/
def exampleSearchOk : String → Nat → Except String SearchResult :=
  fun _ _ => Except.ok ⟨[⟨"Users favorite color is blue", none⟩]⟩

/-- A stubbed remote search whose promise always rejects. -/
def exampleSearchFail : String → Nat → Except String SearchResult :=
  fun _ _ => Except.error "network failure"

/-- A stubbed extraction call whose promise always rejects. -/
def exampleExtractFail : String → List ConversationMessage → Except String (List Memory) :=
  fun _ _ => Except.error "store failed"

/-- A chunk carrying its text in the direct `content` field. -/
def textChunk (s : String) : Chunk :=
  { choices := [], delta := none, content := some s }

/-- The stream of the specification example: chunks `"Hel"`, `"lo"`,
then normal exhaustion. -/
def exampleSource : Source :=
  { chunks := [textChunk "Hel", textChunk "lo"], ending := Ending.exhausted }

/-- A message list whose system message sits in front of a user turn. -/
def exMsgsSys : List AIMessage :=
  [⟨Role.system, "sys"⟩, ⟨Role.user, "q"⟩]

/-- A message with the context block (banner, blank line separated)
appended to its content — the shape `beforeChat` produces for an
existing system message. -/
def withContextAppended (m : AIMessage) (banner ctx : String) : AIMessage :=
  { role := m.role, content := m.content ++ "\n\n" ++ (banner ++ "\n" ++ ctx) }

/-- The fresh system message carrying the context block — the shape
`beforeChat` prepends when no system message exists. -/
def contextSystemMessage (banner ctx : String) : AIMessage :=
  { role := Role.system, content := banner ++ "\n" ++ ctx }

/-!
## Helper lemmas
-/

/-- `findIdx?` on a block decomposition: all of `pre` fails the
predicate and `x` satisfies it, so the first hit is at index
`pre.length`. -/
theorem findIdx?_first_block {α : Type} (p : α → Bool) (x : α) (hx : p x = true) :
    ∀ (pre suf : List α), (∀ a ∈ pre, p a = false) →
      List.findIdx? p (pre ++ x :: suf) = some pre.length := by
  intro pre
  induction pre with
  | nil => intro suf _; simp [List.findIdx?_cons, hx]
  | cons a t ih =>
    intro suf hall
    have ha : p a = false := hall a (List.mem_cons_self a t)
    have ht := ih suf (fun b hb => hall b (List.mem_cons_of_mem a hb))
    simp [List.findIdx?_cons, ha, List.findIdx?_succ, ht]

/-- The single invariant of the wrapper loop: the value of the
accumulator when the `finally` runs is the starting accumulator
followed by the extracted text of every chunk forwarded to the
consumer, and both the forwarded chunks and the outcome coincide with
direct (unwrapped) iteration. -/
theorem runLoop_spec :
    ∀ (rem : List Chunk) (ending : Ending) (acc : String) (budget : Option Nat),
      (runLoop rem ending acc budget).2.2 =
          acc ++ accumText (runLoop rem ending acc budget).1
        ∧ (runLoop rem ending acc budget).1 = (runDirectLoop rem ending budget).1
        ∧ (runLoop rem ending acc budget).2.1 = (runDirectLoop rem ending budget).2 := by
  intro rem
  induction rem with
  | nil =>
    intro ending acc budget
    match budget, ending with
    | some 0, Ending.exhausted =>
      exact ⟨by simp [runLoop, accumText, String.append_empty], rfl, rfl⟩
    | some 0, Ending.error e =>
      exact ⟨by simp [runLoop, accumText, String.append_empty], rfl, rfl⟩
    | some (_ + 1), Ending.exhausted =>
      exact ⟨by simp [runLoop, accumText, String.append_empty], rfl, rfl⟩
    | some (_ + 1), Ending.error e =>
      exact ⟨by simp [runLoop, accumText, String.append_empty], rfl, rfl⟩
    | none, Ending.exhausted =>
      exact ⟨by simp [runLoop, accumText, String.append_empty], rfl, rfl⟩
    | none, Ending.error e =>
      exact ⟨by simp [runLoop, accumText, String.append_empty], rfl, rfl⟩
  | cons c rest ih =>
    intro ending acc budget
    match budget with
    | some 0 =>
      refine ⟨?_, rfl, rfl⟩
      simp [runLoop, accumText, String.append_empty]
    | some (n + 1) =>
      have hb : (some (n + 1)).map (· - 1) = some n := by simp
      have h := ih ending (acc ++ extractContent c) (some n)
      refine ⟨?_, ?_, ?_⟩
      · show (runLoop (c :: rest) ending acc (some (n + 1))).2.2 = _
        simp only [runLoop, hb, accumText]
        rw [h.1, String.append_assoc]
      · simp only [runLoop, runDirectLoop, hb]
        exact congrArg (c :: ·) h.2.1
      · simp only [runLoop, runDirectLoop, hb]
        exact h.2.2
    | none =>
      have hb : (Option.map (· - 1) (none : Option Nat)) = none := rfl
      have h := ih ending (acc ++ extractContent c) none
      refine ⟨?_, ?_, ?_⟩
      · simp only [runLoop, hb, accumText]
        rw [h.1, String.append_assoc]
      · simp only [runLoop, runDirectLoop, hb]
        exact congrArg (c :: ·) h.2.1
      · simp only [runLoop, runDirectLoop, hb]
        exact h.2.2

/-!
## Claim theorems
-/

/-- C1: for every underlying chunk stream and every way its consumption
ends (normal exhaustion, an early break by the consumer, or an error
thrown by the producer), once iteration of the stream returned by
`wrapStreamWithMemory` has begun, `afterChat` is invoked exactly once,
with the concatenation of the text deltas extracted from all chunks
yielded before termination as the final response text. -/
theorem wrapped_afterChat_exactly_once (src : Source) (consume : Consume)
    (h : startsIteration consume = true) :
    (runWrapped src consume).afterChatTexts =
      [accumText (runWrapped src consume).observed] := by
  match consume with
  | Consume.never => simp [startsIteration] at h
  | Consume.take 0 => simp [startsIteration] at h
  | Consume.take (n + 1) =>
    have hs := (runLoop_spec src.chunks src.ending "" (some (n + 1))).1
    simp only [runWrapped]
    rw [hs, String.empty_append]
  | Consume.all =>
    have hs := (runLoop_spec src.chunks src.ending "" none).1
    simp only [runWrapped]
    rw [hs, String.empty_append]

/-- Witness for C1 at the specification example: a fully consumed
stream yielding chunks `"Hel"`, `"lo"` invokes `afterChat` exactly once
with response text `"Hello"`. -/
theorem wrapped_afterChat_exactly_once_witness :
    startsIteration Consume.all = true
      ∧ (runWrapped exampleSource Consume.all).afterChatTexts =
          [accumText (runWrapped exampleSource Consume.all).observed]
      ∧ (runWrapped exampleSource Consume.all).afterChatTexts = ["Hello"] :=
  ⟨rfl, wrapped_afterChat_exactly_once exampleSource Consume.all rfl, by decide⟩

/-- C6: the sequence of chunk values observed by a consumer of the
wrapped stream is identical — same values, same order — to the sequence
observed iterating the unwrapped stream directly, under every consumer
policy; the iteration outcome (done, broke, or the producer error,
re-raised unchanged) also coincides, and in particular a producer error
after the last chunk reaches a draining consumer as that very error. -/
theorem wrapped_forwarding_transparent (src : Source) (consume : Consume) :
    ((runWrapped src consume).observed = (runDirect src consume).1
        ∧ (runWrapped src consume).outcome = (runDirect src consume).2)
      ∧ ∀ e : String,
          (runWrapped ⟨src.chunks, Ending.error e⟩ Consume.all).outcome =
            Outcome.errored e := by
  constructor
  · match consume with
    | Consume.never => exact ⟨rfl, rfl⟩
    | Consume.take 0 => exact ⟨rfl, rfl⟩
    | Consume.take (n + 1) =>
      have hs := runLoop_spec src.chunks src.ending "" (some (n + 1))
      exact ⟨hs.2.1, hs.2.2⟩
    | Consume.all =>
      have hs := runLoop_spec src.chunks src.ending "" none
      exact ⟨hs.2.1, hs.2.2⟩
  · intro e
    have hs := runLoop_spec src.chunks (Ending.error e) "" none
    have hd : (runDirectLoop src.chunks (Ending.error e) none).2 =
        Outcome.errored e := by
      induction src.chunks with
      | nil => rfl
      | cons c rest ih => simpa [runDirectLoop] using ih
    simp only [runWrapped]
    rw [hs.2.2]
    exact hd

/-- C10: if the stream returned by `wrapStreamWithMemory` is never
iterated (its iterator never created, or created but never advanced),
`afterChat` is never invoked and the `memoryPromise` completion handle
never settles; persistence fires exactly when iteration has begun. -/
theorem wrapped_no_iteration_no_persistence (src : Source) :
    (runWrapped src Consume.never).afterChatTexts = []
      ∧ (runWrapped src Consume.never).memorySettled = false
      ∧ (runWrapped src (Consume.take 0)).afterChatTexts = []
      ∧ (runWrapped src (Consume.take 0)).memorySettled = false
      ∧ ∀ consume : Consume,
          (runWrapped src consume).memorySettled = startsIteration consume
            ∧ (runWrapped src consume).afterChatTexts.length =
                (if startsIteration consume then 1 else 0) := by
  refine ⟨rfl, rfl, rfl, rfl, ?_⟩
  intro consume
  match consume with
  | Consume.never => exact ⟨rfl, rfl⟩
  | Consume.take 0 => exact ⟨rfl, rfl⟩
  | Consume.take (n + 1) => exact ⟨rfl, rfl⟩
  | Consume.all => exact ⟨rfl, rfl⟩

/-- C2: for every message list, if the search call performed by
`beforeChat` rejects, `beforeChat` still resolves (the embedded
function is total into `BeforeChatResult`), with `context = ""` and
`enhancedMessages` equal to the original input list. -/
theorem beforeChat_degrades_on_search_failure (cfg : MiddlewareConfig)
    (messages : List AIMessage) (resolved : String)
    (optUserId optQuery : Option String) (e : String) :
    (beforeChat cfg messages resolved optUserId optQuery
        (fun _ _ => Except.error e)).context = ""
      ∧ (beforeChat cfg messages resolved optUserId optQuery
          (fun _ _ => Except.error e)).enhancedMessages = messages := by
  have hstep : searchStep (fun _ _ => Except.error e) cfg.maxMemories
      (computeQuery optQuery messages) = ([], "") := by
    unfold searchStep
    split <;> rfl
  constructor <;> simp [beforeChat, hstep, buildEnhanced]

/-- C5: with auto-store enabled, if the extraction call made by
`afterChat` rejects with message `msg`, `afterChat` resolves with
`success = false` and `error = msg` (it never rejects: the embedded
function is total into `AfterChatResult`); if the call succeeds with
memories `mems`, it resolves with `success = true` and those
memories. -/
theorem afterChat_outcome_reporting (cfg : MiddlewareConfig)
    (messages : List AIMessage) (resp resolved : String)
    (optUserId : Option String)
    (extract : String → List ConversationMessage → Except String (List Memory))
    (msg : String) (mems : List Memory)
    (hauto : cfg.autoStore = true) :
    (extract (chosenUserId optUserId resolved) (buildConversation messages resp) =
        Except.error msg →
      afterChat cfg messages resp resolved optUserId extract =
        { success := false, memories := none, error := some msg })
      ∧ (extract (chosenUserId optUserId resolved) (buildConversation messages resp) =
          Except.ok mems →
        afterChat cfg messages resp resolved optUserId extract =
          { success := true, memories := some mems, error := none }) := by
  constructor <;> intro h <;> simp [afterChat, hauto, h]

/-- Witness for C5: a failing extraction call is reported as
`success = false` with the failure message, for a concrete
configuration and exchange. -/
theorem afterChat_outcome_reporting_witness :
    afterChat exampleCfg [⟨Role.user, "hi"⟩] "resp" "anonymous" none
        exampleExtractFail =
      { success := false, memories := none, error := some "store failed" } :=
  (afterChat_outcome_reporting exampleCfg [⟨Role.user, "hi"⟩] "resp" "anonymous"
      none exampleExtractFail "store failed" [] rfl).1 rfl

/-- C7: a client handle for a user id is constructed at most once per
middleware instance. A first `getClient` call constructs the handle
from the configuration captured at construction (`mkClientFor cfg u`,
which runs the `Memphora` constructor on the captured `apiKey`,
`apiUrl`, `maxTokens`) and caches it; a call that finds a cached handle
returns exactly that handle with the cache unchanged; and no call for
any user id ever replaces or evicts an existing cached handle. Since
the middleware closed over the destructured snapshot `cfg`, mutation of
the original configuration object after construction cannot reach
`mkClientFor`. -/
theorem getClient_registry (cfg : MiddlewareConfig)
    (cache : List (String × MemphoraState)) (u v : String) (h : MemphoraState) :
    (cacheGet cache u = none →
        getClient cfg cache u = (mkClientFor cfg u, (u, mkClientFor cfg u) :: cache))
      ∧ (cacheGet cache u = some h → getClient cfg cache u = (h, cache))
      ∧ (cacheGet cache u = some h →
          cacheGet (getClient cfg cache v).2 u = some h) := by
  have hcons : ∀ (w : String) (m : MemphoraState), w ≠ u →
      cacheGet ((w, m) :: cache) u = cacheGet cache u := by
    intro w m hw
    unfold cacheGet
    rw [List.find?_cons_of_neg _ (by simp [hw])]
  have hself : ∀ (m : MemphoraState), cacheGet ((u, m) :: cache) u = some m := by
    intro m
    unfold cacheGet
    rw [List.find?_cons_of_pos _ (by simp)]
    rfl
  refine ⟨?_, ?_, ?_⟩
  · intro hmiss
    simp only [getClient, hmiss, Option.isSome_none, Bool.false_eq_true, if_false,
      hself, Option.getD_some]
  · intro hhit
    simp only [getClient, hhit, Option.isSome_some, if_true, Option.getD_some]
  · intro hhit
    rcases hfind : cacheGet cache v with _ | m
    · have hne : v ≠ u := by
        intro heq
        rw [heq, hhit] at hfind
        exact Option.noConfusion hfind
      simp only [getClient, hfind, Option.isSome_none, Bool.false_eq_true, if_false]
      rw [hcons v (mkClientFor cfg v) hne]
      exact hhit
    · simp only [getClient, hfind, Option.isSome_some, if_true]
      exact hhit

/-- Witness for C7: with the handle for `"u"` already cached, a second
`getClient "u"` call returns that very handle and leaves the cache
unchanged. -/
theorem getClient_registry_witness :
    getClient exampleCfg [("u", mkClientFor exampleCfg "u")] "u" =
      (mkClientFor exampleCfg "u", [("u", mkClientFor exampleCfg "u")]) :=
  (getClient_registry exampleCfg [("u", mkClientFor exampleCfg "u")] "u" "v"
      (mkClientFor exampleCfg "u")).2.1 (by simp [cacheGet])

/-- C8 counterexample: constructing a `Memphora` with both the user
identity and the API key missing, and a middleware with the API key
missing, raises no error — both constructors complete normally, so the
failure is deferred rather than raised at construction time. -/
theorem construction_missing_key_no_error :
    memphoraNew { userId := none, apiKey := none, apiUrl := none,
                  autoCompress := none, maxTokens := none } =
      Except.ok
        { userId := none,
          client := { baseUrl := "https://api.memphora.ai/api/v1", apiKey := none },
          autoCompress := true, maxTokens := 500 }
      ∧ createMemphoraMiddlewareJS
          { apiKey := none, apiUrl := none, defaultUserId := none,
            maxMemories := none, maxTokens := none, autoStore := none,
            injectAsSystemMessage := none, systemBanner := none } =
        Except.ok
          { apiKey := none, apiUrl := none, defaultUserId := "anonymous",
            maxMemories := 10, maxTokens := 2000, autoStore := true,
            injectAsSystemMessage := true,
            systemBanner := "Relevant context from previous conversations:" } :=
  ⟨rfl, rfl⟩

/-- C8 amended: construction performs no runtime validation of the user
identity or the API key — `new Memphora(...)` and
`createMemphoraMiddleware(...)` always complete normally, storing the
(possibly missing) values as given, and a missing value can only
surface later, at the first remote operation. -/
theorem construction_never_raises (o : MemphoraOptionsJS) (c : MiddlewareConfigJS) :
    (∃ st, memphoraNew o = Except.ok st
        ∧ st.userId = o.userId ∧ st.client.apiKey = o.apiKey)
      ∧ ∃ mw, createMemphoraMiddlewareJS c = Except.ok mw ∧ mw.apiKey = c.apiKey :=
  ⟨⟨_, rfl, rfl, rfl⟩, ⟨_, rfl, rfl⟩⟩

/-- C9 counterexample: an explicit empty-string `userId` override is
falsy under the JavaScript `||` in `beforeChat`, so the resolved user
id falls back to the default `"anonymous"` instead of equalling the
override. -/
theorem empty_userId_override_ignored :
    (beforeChat exampleCfg [] "anonymous" (some "") none
        exampleSearchFail).userId = "anonymous"
      ∧ ("anonymous" : String) ≠ "" :=
  ⟨rfl, by decide⟩

/-- C9 amended: for every non-empty explicit `userId` override, the
override takes precedence in `beforeChat` (the result's `userId` is the
override) and in `afterChat` (the request-derived/default resolution is
irrelevant to the result); an empty-string override instead falls back
to request-derived resolution. -/
theorem nonempty_userId_override_precedence (cfg : MiddlewareConfig)
    (messages : List AIMessage) (resolved s : String) (optQuery : Option String)
    (search : String → Nat → Except String SearchResult) (resp : String)
    (extract : String → List ConversationMessage → Except String (List Memory))
    (hs : s ≠ "") :
    (beforeChat cfg messages resolved (some s) optQuery search).userId = s
      ∧ afterChat cfg messages resp resolved (some s) extract =
          afterChat cfg messages resp s (some s) extract := by
  have hc : ∀ r : String, chosenUserId (some s) r = s := by
    intro r
    simp [chosenUserId, jsOrOpt, hs]
  constructor
  · simp [beforeChat, hc]
  · simp [afterChat, hc]

/-- Witness for C9 amended: the override `"alice"` wins over the
default resolution `"anonymous"` in both operations. -/
theorem nonempty_userId_override_precedence_witness :
    (beforeChat exampleCfg [] "anonymous" (some "alice") none
        exampleSearchFail).userId = "alice"
      ∧ afterChat exampleCfg [] "r" "anonymous" (some "alice") exampleExtractFail =
          afterChat exampleCfg [] "r" "alice" (some "alice") exampleExtractFail :=
  nonempty_userId_override_precedence exampleCfg [] "anonymous" "alice" none
    exampleSearchFail "r" exampleExtractFail (by decide)

/-- C4: when no explicit query override is supplied, `beforeChat` uses
the content of the last user-role message — the user message after
which no further user message occurs — as the search query: the chosen
query equals that content, and `beforeChat` behaves identically to a
call whose query override is exactly that content. -/
theorem beforeChat_query_last_user_message (cfg : MiddlewareConfig)
    (pre suf : List AIMessage) (m : AIMessage) (messages : List AIMessage)
    (resolved : String) (optUserId : Option String)
    (search : String → Nat → Except String SearchResult)
    (hdecomp : messages = pre ++ m :: suf)
    (hrole : m.role = Role.user)
    (hsuf : ∀ x ∈ suf, x.role ≠ Role.user) :
    computeQuery none messages = m.content
      ∧ beforeChat cfg messages resolved optUserId none search =
          beforeChat cfg messages resolved optUserId (some m.content) search := by
  have hfind : messages.reverse.find? (fun x => x.role = Role.user) = some m := by
    subst hdecomp
    rw [List.reverse_append, List.reverse_cons, List.append_assoc, List.find?_append]
    have h1 : suf.reverse.find? (fun x => decide (x.role = Role.user)) = none := by
      rw [List.find?_eq_none]
      intro x hx
      simp only [List.mem_reverse] at hx
      simp [hsuf x hx]
    rw [h1]
    have h2 : List.find? (fun x => decide (x.role = Role.user)) ([m] ++ pre.reverse) =
        some m := by
      rw [List.find?_append, List.find?_cons_of_pos _ (by simp [hrole])]
      rfl
    rw [Option.none_or]
    exact h2
  have hq : computeQuery none messages = m.content := by
    unfold computeQuery
    rw [hfind]
    by_cases hc : m.content = ""
    · simp [jsOrOpt, hc]
    · simp [jsOrOpt, hc]
  refine ⟨hq, ?_⟩
  have hq2 : computeQuery (some m.content) messages = computeQuery none messages := by
    unfold computeQuery
    rw [hfind]
    by_cases hc : m.content = ""
    · simp [jsOrOpt, hc]
    · simp [jsOrOpt, hc]
  simp only [beforeChat, hq2]

/-- Witness for C4 at a concrete list: a single user message supplies
the default search query, and `beforeChat` coincides with the
override-query call. -/
theorem beforeChat_query_last_user_message_witness :
    computeQuery none [⟨Role.user, "What is my favorite color"⟩] =
        "What is my favorite color"
      ∧ beforeChat exampleCfg [⟨Role.user, "What is my favorite color"⟩]
            "anonymous" none none exampleSearchOk =
          beforeChat exampleCfg [⟨Role.user, "What is my favorite color"⟩]
            "anonymous" none (some "What is my favorite color") exampleSearchOk :=
  beforeChat_query_last_user_message exampleCfg [] []
    ⟨Role.user, "What is my favorite color"⟩
    [⟨Role.user, "What is my favorite color"⟩] "anonymous" none exampleSearchOk
    rfl rfl (by intro x hx; exact absurd hx (List.not_mem_nil x))

/-- C3: with system-message injection enabled and a non-empty context
block produced, `beforeChat` augments the list as follows. If the input
decomposes as `pre ++ sysm :: suf` with `sysm` the first system-role
message (nothing in `pre` has role system), the output has exactly the
input's length and is the same list with the context block — banner
included, separated by a blank line — appended to `sysm`'s content in
place. If the input has no system-role message at all, the output is
the input prefixed by a fresh system message carrying the banner and
context, so its length is the input's plus one. -/
theorem beforeChat_injection_placement (cfg : MiddlewareConfig)
    (messages pre suf : List AIMessage) (sysm : AIMessage) (resolved : String)
    (optUserId optQuery : Option String)
    (search : String → Nat → Except String SearchResult)
    (hinj : cfg.injectAsSystemMessage = true)
    (hctx : (beforeChat cfg messages resolved optUserId optQuery search).context ≠ "") :
    (messages = pre ++ sysm :: suf → sysm.role = Role.system →
        (∀ x ∈ pre, x.role ≠ Role.system) →
        (beforeChat cfg messages resolved optUserId optQuery
              search).enhancedMessages.length = messages.length
          ∧ (beforeChat cfg messages resolved optUserId optQuery
                search).enhancedMessages =
              pre ++ withContextAppended sysm cfg.systemBanner
                  (beforeChat cfg messages resolved optUserId optQuery search).context
                :: suf)
      ∧ ((∀ x ∈ messages, x.role ≠ Role.system) →
          (beforeChat cfg messages resolved optUserId optQuery
                search).enhancedMessages.length = messages.length + 1
            ∧ (beforeChat cfg messages resolved optUserId optQuery
                  search).enhancedMessages =
                contextSystemMessage cfg.systemBanner
                    (beforeChat cfg messages resolved optUserId optQuery search).context
                  :: messages) := by
  rcases hsplit : searchStep search cfg.maxMemories (computeQuery optQuery messages)
    with ⟨mems, ctx⟩
  simp only [beforeChat, hsplit] at hctx ⊢
  have hcond : ctx ≠ "" ∧ cfg.injectAsSystemMessage = true := ⟨hctx, hinj⟩
  constructor
  · intro hdecomp hrole hpre
    subst hdecomp
    have hfound : List.findIdx? (fun x => x.role = Role.system) (pre ++ sysm :: suf) =
        some pre.length :=
      findIdx?_first_block _ sysm (by simp [hrole]) pre suf
        (fun a ha => by simp [hpre a ha])
    have hgetD : (pre ++ sysm :: suf).getD pre.length ⟨Role.system, ""⟩ = sysm := by
      rw [List.getD_eq_getElem?_getD, List.getElem?_append_right (le_refl pre.length),
        Nat.sub_self, List.getElem?_cons_zero]
      rfl
    have hset : ∀ a : AIMessage, (pre ++ sysm :: suf).set pre.length a = pre ++ a :: suf := by
      intro a
      rw [List.set_append, if_neg (lt_irrefl pre.length), Nat.sub_self,
        List.set_cons_zero]
    unfold buildEnhanced
    rw [if_pos hcond, hfound]
    simp only [hgetD, hset]
    refine ⟨by simp, ?_⟩
    simp [withContextAppended]
  · intro hnone
    have hfound : List.findIdx? (fun x => x.role = Role.system) messages = none :=
      List.findIdx?_eq_none_iff.mpr (fun x hx => by simp [hnone x hx])
    unfold buildEnhanced
    rw [if_pos hcond, hfound]
    exact ⟨by simp, by simp [contextSystemMessage]⟩

/-- Witness for C3: for the concrete list with a leading system message
and a stubbed search returning one fact, the context block lands on the
existing system message and the length is preserved; the no-system case
is witnessed through the first conjunct's concrete evaluation. -/
theorem beforeChat_injection_placement_witness :
    (beforeChat exampleCfg exMsgsSys "anonymous" none none
          exampleSearchOk).enhancedMessages.length = exMsgsSys.length
      ∧ (beforeChat exampleCfg exMsgsSys "anonymous" none none
            exampleSearchOk).enhancedMessages =
          [] ++ withContextAppended ⟨Role.system, "sys"⟩ exampleCfg.systemBanner
              (beforeChat exampleCfg exMsgsSys "anonymous" none none
                exampleSearchOk).context
            :: [⟨Role.user, "q"⟩] :=
  (beforeChat_injection_placement exampleCfg exMsgsSys [] [⟨Role.user, "q"⟩]
      ⟨Role.system, "sys"⟩ "anonymous" none none exampleSearchOk rfl
      (by decide)).1 rfl rfl
    (by intro x hx; exact absurd hx (List.not_mem_nil x))

end Memphora
